import Mathlib

/-!
# Verification of the Quincy core against its specification

Shallow embedding of the Quincy VPN core (authentication handshake,
virtual-interface I/O engine, wire packet model) together with proofs of the
specified properties.  Rust functions are translated into executable Lean
definitions: machine bytes become `Nat` (a TUN byte is `< 256`; where a bound
matters it is an explicit hypothesis), fallible code returns `Except`/`Option`,
and the outcome of an external asynchronous operation (a QUIC stream open, a
device receive, a bounded channel operation) is passed in as an explicit
parameter, so each endpoint function is a pure function of the behaviour of its
collaborators.
-/

namespace Quincy

/-- A JSON value (`serde_json::Value`); numbers are modelled as integers since
no modelled code path inspects a number. -/
inductive Json where
  | null : Json
  | bool (b : Bool) : Json
  | num (n : Int) : Json
  | str (s : String) : Json
  | arr (elems : List Json) : Json
  | obj (fields : List (String × Json)) : Json

/-- An IP network address with prefix length (`ipnet::IpNet`).  An IPv4 network
carries its four octets, an IPv6 network its eight 16-bit groups (the units in
which the textual form is written). -/
inductive IpNet where
  | v4 (octets : List Nat) (prefixLen : Nat) : IpNet
  | v6 (groups : List Nat) (prefixLen : Nat) : IpNet
deriving DecidableEq

/-- Well-formedness of an `IpNet` value, guaranteed by construction on the Rust
side: octets are bytes, groups are 16-bit, and the prefix length is within the
family bound (`ipnet` rejects larger ones with `PrefixLenError`). -/
def IpNet.WF : IpNet → Prop
  | .v4 os pl => os.length = 4 ∧ (∀ o ∈ os, o < 256) ∧ pl ≤ 32
  | .v6 gs pl => gs.length = 8 ∧ (∀ g ∈ gs, g < 65536) ∧ pl ≤ 128

instance (n : IpNet) : Decidable n.WF :=
  match n with
  | .v4 os pl => inferInstanceAs (Decidable (os.length = 4 ∧ (∀ o ∈ os, o < 256) ∧ pl ≤ 32))
  | .v6 gs pl => inferInstanceAs (Decidable (gs.length = 8 ∧ (∀ g ∈ gs, g < 65536) ∧ pl ≤ 128))

/-- The character for a single digit, lower-case above `9` (Rust's `{}` for
decimal and `{:x}` for hexadecimal digits). -/
def digitChar (d : Nat) : Char :=
  if d < 10 then Char.ofNat (48 + d) else Char.ofNat (87 + d)

/-- Reads one digit character back in base `b` (decimal digits, then lower-case
hexadecimal letters), rejecting characters whose value is not below `b`. -/
def charToDigit (b : Nat) (c : Char) : Option Nat :=
  let v : Option Nat :=
    if 48 ≤ c.toNat ∧ c.toNat ≤ 57 then some (c.toNat - 48)
    else if 97 ≤ c.toNat ∧ c.toNat ≤ 102 then some (c.toNat - 87)
    else none
  match v with
  | some d => if d < b then some d else none
  | none => none

/-- The digits of `n` in base `b`, most significant first (`[0]` for zero). -/
def msbDigits (b n : Nat) : List Nat :=
  if n = 0 then [0] else (Nat.digits b n).reverse

/-- Renders `n` in base `b` the way Rust's formatter does: no sign, no leading
zeroes, `"0"` for zero. -/
def renderNum (b n : Nat) : List Char :=
  (msbDigits b n).map digitChar

/-- Reads a maximal non-empty run of base-`b` digits from the front of `cs`. -/
def parseNum (b : Nat) (cs : List Char) : Option (Nat × List Char) :=
  let ds := cs.takeWhile (fun c => (charToDigit b c).isSome)
  if ds.isEmpty then none
  else
    some (ds.foldl (fun acc c => acc * b + (charToDigit b c).getD 0) 0,
          cs.dropWhile (fun c => (charToDigit b c).isSome))

/-- Consumes one expected character. -/
def expectChar (c : Char) : List Char → Option (List Char)
  | x :: rest => if x = c then some rest else none
  | [] => none

/-- Renders a list of numbers in base `b` separated by `sep`
(dotted-quad IPv4 octets, colon-separated IPv6 groups). -/
def renderSepNums (b : Nat) (sep : Char) : List Nat → List Char
  | [] => []
  | [n] => renderNum b n
  | n :: m :: rest => renderNum b n ++ sep :: renderSepNums b sep (m :: rest)

/-- Reads exactly `count` base-`b` numbers separated by `sep`. -/
def parseSepNums (b : Nat) (sep : Char) : Nat → List Char → Option (List Nat × List Char)
  | 0, _ => none
  | 1, cs => (parseNum b cs).map (fun p => ([p.1], p.2))
  | count + 2, cs => do
    let p1 ← parseNum b cs
    let r2 ← expectChar sep p1.2
    let p3 ← parseSepNums b sep (count + 1) r2
    pure (p1.1 :: p3.1, p3.2)

/-- The textual (CIDR) form of an `IpNet`, `"{address}/{prefix}"`, as the
`ipnet` crate's `Display` writes it and serde serializes it.  IPv4 is the exact
dotted-quad form; for IPv6 the model fixes the full eight-group lower-case
hexadecimal spelling — the Rust formatter may additionally compress the longest
zero run with `::` (and special-case IPv4-mapped addresses), a purely textual
abbreviation of the same groups that the parser also accepts. -/
def renderIpNet : IpNet → List Char
  | .v4 os pl => renderSepNums 10 '.' os ++ '/' :: renderNum 10 pl
  | .v6 gs pl => renderSepNums 16 ':' gs ++ '/' :: renderNum 10 pl

/-- Reads a dotted-quad IPv4 CIDR string: four octets below 256, `/`, and a
prefix length of at most 32, consuming the whole input
(`Ipv4Net::from_str`). -/
def parseIpv4NetChars (cs : List Char) : Option IpNet := do
  let p1 ← parseSepNums 10 '.' 4 cs
  let r2 ← expectChar '/' p1.2
  let p3 ← parseNum 10 r2
  if p3.2 = [] ∧ (∀ o ∈ p1.1, o < 256) ∧ p3.1 ≤ 32 then
    some (.v4 p1.1 p3.1)
  else
    none

/-- Reads an eight-group IPv6 CIDR string: groups below 2^16, `/`, and a prefix
length of at most 128, consuming the whole input (`Ipv6Net::from_str` on the
uncompressed spelling). -/
def parseIpv6NetChars (cs : List Char) : Option IpNet := do
  let p1 ← parseSepNums 16 ':' 8 cs
  let r2 ← expectChar '/' p1.2
  let p3 ← parseNum 10 r2
  if p3.2 = [] ∧ (∀ g ∈ p1.1, g < 65536) ∧ p3.1 ≤ 128 then
    some (.v6 p1.1 p3.1)
  else
    none

/-- Reads an `IpNet` from its CIDR string (`IpNet::from_str`, which tries the
IPv4 address family first and then IPv6), as serde's deserializer invokes
it. -/
def parseIpNet (s : String) : Option IpNet :=
  match parseIpv4NetChars s.toList with
  | some n => some n
  | none => parseIpv6NetChars s.toList

/-- The wire messages of the handshake
(`src/quincy/src/auth/stream.rs`, `AuthMessage`). -/
inductive AuthMessage where
  | authenticate (payload : Json) : AuthMessage
  | authenticated (client_address : IpNet) (server_address : IpNet) : AuthMessage
  | failed : AuthMessage

/-- Well-formedness of a wire message: the addresses it carries are well formed
(true by construction in Rust, where they are `ipnet::IpNet` values). -/
def AuthMessage.WF : AuthMessage → Prop
  | .authenticated ca sa => ca.WF ∧ sa.WF
  | _ => True

/-- Serialization of an `AuthMessage` (`serde_json::to_vec` at the JSON-value
level): serde's externally-tagged representation of the derived enum, with
`IpNet` fields written as CIDR strings.  The byte-level rendering of the JSON
value itself is `serde_json`'s and is not re-modelled; one message is one JSON
document, written whole with no length prefix. -/
def AuthMessage.toJson : AuthMessage → Json
  | .authenticate payload => .obj [("Authenticate", .obj [("payload", payload)])]
  | .authenticated ca sa =>
    .obj [("Authenticated", .obj
      [("client_address", .str (String.mk (renderIpNet ca))),
       ("server_address", .str (String.mk (renderIpNet sa)))])]
  | .failed => .str "Failed"

/-- First field of the given name in a JSON object (serde's by-name field
access; field order does not matter, unknown fields are ignored by default). -/
def lookupField : List (String × Json) → String → Option Json
  | [], _ => none
  | (k, v) :: rest, key => if k = key then some v else lookupField rest key

/-- Deserialization of an `AuthMessage` (`serde_json::from_slice` at the
JSON-value level): an externally-tagged value is either the bare variant-name
string of a unit variant or a one-entry object whose key names the variant. -/
def AuthMessage.fromJson : Json → Option AuthMessage
  | .str s => if s = "Failed" then some .failed else none
  | .obj [(tag, content)] =>
    if tag = "Authenticate" then
      match content with
      | .obj fields => (lookupField fields "payload").map .authenticate
      | _ => none
    else if tag = "Authenticated" then
      match content with
      | .obj fields =>
        match lookupField fields "client_address", lookupField fields "server_address" with
        | some (.str cas), some (.str sas) =>
          match parseIpNet cas, parseIpNet sas with
          | some ca, some sa => some (.authenticated ca sa)
          | _, _ => none
        | _, _ => none
      | _ => none
    else none
  | _ => none

/-! ## Authentication handshake

The handshake endpoints (`AuthClient::authenticate` in
`src/quincy-client/src/auth.rs`, `AuthServer::handle_authentication` in
`src/quincy-server/src/auth.rs`) are embedded as pure functions of an
environment recording the outcome of each external operation: every blocking
transport step is a function of the timeout duration it was granted, returning
either a completed result or expiry. -/

/-- The error kinds of `AuthError` (`src/quincy/src/error.rs`).  The endpoint
functions return `Except AuthError`; the `QuincyError::Auth` wrapper that the
Rust `Result` adds around every one of these is dropped as pure boxing. -/
inductive AuthError where
  | invalidCredentials : AuthError
  | userNotFound : AuthError
  | timeout : AuthError
  | invalidPayload : AuthError
  | permissionDenied : AuthError
  | storeUnavailable : AuthError
  | passwordHashingFailed : AuthError
  | streamError : AuthError
deriving DecidableEq

/-- Result of `tokio::time::timeout(d, op)`: the wrapped operation completed
within the allotted duration, or the timer elapsed first. -/
inductive TimedOutcome (α : Type) where
  | completed (a : α) : TimedOutcome α
  | elapsed : TimedOutcome α

/-- What one bounded stream read (`read_buf`) delivered: a byte buffer that is
a well-formed JSON document, or bytes that are not one (including an empty
read).  The spec's framing model (§6): one message is one JSON document
delivered whole by a single read. -/
inductive Wire where
  | json (j : Json) : Wire
  | garbage : Wire

/-- Embeds `serde_json::from_slice::<AuthMessage>` over a received buffer. -/
def parseWire : Wire → Option AuthMessage
  | .json j => AuthMessage.fromJson j
  | .garbage => none

/-- Stream mode (`AuthStreamMode`): initiator or responder. -/
inductive AuthStreamMode where
  | client : AuthStreamMode
  | server : AuthStreamMode

/-- Behaviour of the transport connection: the outcome of `open_bi`/`accept_bi`
as a function of the timeout duration they are raced against.  The stream pair
itself carries no modelled data, so it is `Unit`; a transport-level failure is
the `Except.error` case. -/
structure TransportEnv where
  openBi : Nat → TimedOutcome (Except Unit Unit)
  acceptBi : Nat → TimedOutcome (Except Unit Unit)

/-- Embeds `AuthStreamBuilder::connect` (`src/quincy/src/auth/stream.rs`): open or
accept a bidirectional stream depending on the mode, bounded by
`connection_timeout`; a completed failure is `StreamError`, timer expiry is
`Timeout`. -/
def AuthStreamBuilder.connect (mode : AuthStreamMode) (env : TransportEnv)
    (connectionTimeout : Nat) : Except AuthError Unit :=
  let streamResult :=
    match mode with
    | .client => env.openBi connectionTimeout
    | .server => env.acceptBi connectionTimeout
  match streamResult with
  | .completed (.ok streams) => .ok streams
  | .completed (.error _) => .error .streamError
  | .elapsed => .error .timeout

/-- Embeds `AuthStream::send_message`: serialization never fails on the values this
model can build (Rust maps a `serde_json::to_vec` failure to `InvalidPayload`);
a failed `write_all` is `StreamError`.  The message argument is what goes on
the wire when the write succeeds. -/
def AuthStream.send_message (_message : AuthMessage) (writeAll : Except Unit Unit) :
    Except AuthError Unit :=
  match writeAll with
  | .error _ => .error .streamError
  | .ok _ => .ok ()

/-- Embeds `AuthStream::recv_message`: one `read_buf` into a bounded buffer — a failed
read is `StreamError` — then one parse of whatever arrived — a parse failure is
`InvalidPayload`. -/
def AuthStream.recv_message (readBuf : Except Unit Wire) : Except AuthError AuthMessage :=
  match readBuf with
  | .error _ => .error .streamError
  | .ok w =>
    match parseWire w with
    | some m => .ok m
    | none => .error .invalidPayload

/-- Modelled from the spec: the error that the `?` operator turns a client-side
receive expiry into.  The `From<tokio::time::error::Elapsed>` conversion used
by `timeout(self.auth_timeout, auth_stream.recv_message()).await??` is not
under `src/` (and `src/quincy/src/constants.rs` is likewise absent); spec §4.1
and §8 fix its behaviour: expiry "is reported as a distinct timeout error",
"the initiator fails with a timeout error, not a generic I/O error". -/
def elapsedError : AuthError := .timeout

/-- Behaviour of the client's collaborators during one `authenticate` call. -/
structure ClientEnv where
  transport : TransportEnv
  /-- Result of `self.authenticator.generate_payload()`. -/
  payload : Except AuthError Json
  /-- Outcome of the `write_all` carrying the `Authenticate` message. -/
  writeAll : Except Unit Unit
  /-- Outcome of `timeout(d, read_buf)` for the single reply read, as a
  function of the allotted duration `d`. -/
  readBuf : Nat → TimedOutcome (Except Unit Wire)

/-- Embeds `AuthClient::authenticate` (`src/quincy-client/src/auth.rs`): connect the
client-mode stream (timeout-bounded), generate and send the `Authenticate`
payload, perform one timeout-bounded receive, and map the reply:
`Authenticated` returns the address pair, `Failed` is `InvalidCredentials`,
anything else is `InvalidPayload`. -/
def AuthClient.authenticate (authTimeout : Nat) (env : ClientEnv) :
    Except AuthError (IpNet × IpNet) := do
  let _stream ← AuthStreamBuilder.connect .client env.transport authTimeout
  let authenticationPayload ← env.payload
  let _ ← AuthStream.send_message (.authenticate authenticationPayload) env.writeAll
  let authResponse ←
    match env.readBuf authTimeout with
    | .elapsed => Except.error elapsedError
    | .completed r => AuthStream.recv_message r
  match authResponse with
  | .authenticated client_address server_address => .ok (client_address, server_address)
  | .failed => .error .invalidCredentials
  | _ => .error .invalidPayload

/-- Behaviour of the server's collaborators during one `handle_authentication`
call. -/
structure ServerEnv where
  transport : TransportEnv
  /-- Outcome of `timeout(d, read_buf)` for the single request read. -/
  readBuf : Nat → TimedOutcome (Except Unit Wire)
  /-- Result of `self.authenticator.authenticate_user(payload)`: the pluggable
  credential-validation capability. -/
  authenticateUser : Json → Except AuthError (String × IpNet)
  /-- Outcome of the `write_all` carrying the reply message. -/
  writeAll : Except Unit Unit

/-- Embeds `AuthServer::handle_authentication` (`src/quincy-server/src/auth.rs`),
returning both the call's result and the list of messages the server attempted
to put on the wire (for composition with the client).  Connect the server-mode
stream; one timeout-bounded receive (`map_err(|_| AuthError::Timeout)??`): a
receive or parse failure propagates with nothing sent.  An `Authenticate`
message goes to the validator: a validation error propagates with nothing sent
(the `?` on `authenticate_user`); success sends `Authenticated` back and
returns the `(username, client_address)` pair.  Any other message sends
`Failed` (result discarded) and returns `InvalidPayload`. -/
def AuthServer.handle_authentication (serverAddress : IpNet) (authTimeout : Nat)
    (env : ServerEnv) : Except AuthError (String × IpNet) × List AuthMessage :=
  match AuthStreamBuilder.connect .server env.transport authTimeout with
  | .error e => (.error e, [])
  | .ok _stream =>
    let message : Except AuthError AuthMessage :=
      match env.readBuf authTimeout with
      | .elapsed => .error .timeout
      | .completed r => AuthStream.recv_message r
    match message with
    | .error e => (.error e, [])
    | .ok (.authenticate payload) =>
      match env.authenticateUser payload with
      | .error e => (.error e, [])
      | .ok (username, client_address) =>
        let reply := AuthMessage.authenticated client_address serverAddress
        match AuthStream.send_message reply env.writeAll with
        | .error e => (.error e, [reply])
        | .ok _ =>
          -- `auth_stream.close()` always returns `Ok` (its `finish` result is ignored)
          (.ok (username, client_address), [reply])
    | .ok _ =>
      (.error .invalidPayload, [.failed])

/-- Consistency of the client's single reply read with what the server put on
the wire: spec §3/§6 — exactly one message flows in each direction, each as one
whole JSON document per read.  The read may expire or fail at the transport
level; if it completes successfully it delivers the serialized form of a
message the server sent.  In particular, when the server sent nothing, no
successful read is possible. -/
def clientRecvConsistent (sent : List AuthMessage) (r : TimedOutcome (Except Unit Wire)) : Prop :=
  match r with
  | .elapsed => True
  | .completed (.error _) => True
  | .completed (.ok w) => ∃ m ∈ sent, w = .json m.toJson

/-! ## Wire packet model (`src/quincy/src/network/packet.rs`) -/

/-- The network-error kind raised by the packet model
(`NetworkError::PacketError` in `src/quincy/src/error.rs`). -/
inductive NetworkError where
  | packetError (reason : String) : NetworkError
deriving DecidableEq

/-- An IP address (`std::net::IpAddr`): four octets or sixteen octets. -/
inductive IpAddr where
  | v4 (octets : List Nat) : IpAddr
  | v6 (octets : List Nat) : IpAddr
deriving DecidableEq

/-- A `Packet`: an immutable byte buffer tagged as one IP datagram.  Bytes are
`u8`; the model carries them as `Nat` (every byte a device or peer produces is
below 256). -/
structure Packet where
  data : List Nat
deriving DecidableEq

/-- Embeds `Packet::parse_ipv4_destination`: requires at least 20 bytes; the
destination is bytes `16..20`. -/
def Packet.parse_ipv4_destination (p : Packet) : Except NetworkError (List Nat) :=
  if p.data.length < 20 then
    .error (.packetError "Packet is too short for IPv4 header")
  else
    .ok ((p.data.drop 16).take 4)

/-- Embeds `Packet::parse_ipv6_destination`: requires at least 40 bytes; the
destination is bytes `24..40`. -/
def Packet.parse_ipv6_destination (p : Packet) : Except NetworkError (List Nat) :=
  if p.data.length < 40 then
    .error (.packetError "Packet is too short for IPv6 header")
  else
    .ok ((p.data.drop 24).take 16)

/-- Embeds `Packet::destination`: an empty buffer is an error; otherwise the high
nibble of byte 0 (`self.data[0] >> 4`) selects the family, and any other
version value is an unsupported-version error naming the version. -/
def Packet.destination (p : Packet) : Except NetworkError IpAddr :=
  if p.data.isEmpty then
    .error (.packetError "Packet is empty")
  else
    let version := p.data.headD 0 >>> 4
    if version = 4 then
      (p.parse_ipv4_destination).map .v4
    else if version = 6 then
      (p.parse_ipv6_destination).map .v6
    else
      .error (.packetError s!"Unsupported IP version: {version}")

/-! ## Virtual interface I/O engine (`src/quincy/src/network/interface/tun_rs.rs`)

The engine's caller-facing operations act on the two bounded `tokio::mpsc`
queues; the state of a live `TunRsInterface` instance is the contents of those
queues, whether each queue has been closed from the far side (its background
task gone), and whether the OS device is still enabled.  A queue is modelled as
a list, oldest element first.  `src/quincy/src/constants.rs`
(`PACKET_CHANNEL_SIZE`) is not under `src/`; the spec says only that the
capacity is a fixed constant and that a producer hitting a full queue waits
rather than drops, so a (possibly waiting) successful send is modelled as an
append and no modelled claim depends on the capacity value. -/

/-- The interface-error kinds used by the modelled operations
(`InterfaceError` in `src/quincy/src/error.rs`). -/
inductive InterfaceError where
  | creationFailed : InterfaceError
  | configurationFailed (reason : String) : InterfaceError
  | ioError (operation : String) : InterfaceError
deriving DecidableEq

/-- Result of one asynchronous engine operation: a ready result, or a suspension
that is still waiting on its queue (a blocked caller). -/
inductive AsyncResult (α : Type) where
  | ready (r : Except InterfaceError α) : AsyncResult α
  | pending : AsyncResult α

/-- State of one live `TunRsInterface` instance. -/
structure TunState where
  /-- Inbound (device → caller) queue contents, oldest first. -/
  inbound : List Packet
  /-- The inbound sender is gone: the reader task has exited or been aborted. -/
  inboundClosed : Bool
  /-- Outbound (caller → device) queue contents, oldest first. -/
  outbound : List Packet
  /-- The outbound receiver is gone: the writer task has exited or been aborted. -/
  outboundClosed : Bool
  /-- The OS device is enabled. -/
  enabled : Bool
  /-- The configured MTU (`u16`, so at most 65535). -/
  mtu : Nat
deriving DecidableEq

/-- Batch bound of `read_packets`: `u16::MAX as usize / mtu`. -/
def readPacketsBatchSize (mtu : Nat) : Nat := 65535 / mtu

/-- The offload paths' batch bound:
`(u16::MAX as usize / mtu).min(IDEAL_BATCH_SIZE)`.  `IDEAL_BATCH_SIZE` comes
from the external `tun_rs` crate and is kept as a parameter. -/
def offloadBatchSize (mtu ideal : Nat) : Nat := min (65535 / mtu) ideal

/-- The batch bound as the spec's sentence literally words it:
`min(64KB / MTU, platform-ideal-batch)`. -/
def specOffloadBatchSize (mtu ideal : Nat) : Nat := min (65536 / mtu) ideal

/-- Embeds `TunRsInterface::read_packet`: lock the reader channel and `recv` once.
`recv` yields the oldest queued packet even after close; it yields `None` — the
I/O error — only once the queue is both closed and drained; on an open empty
queue the caller suspends. -/
def TunState.read_packet (st : TunState) : AsyncResult (Packet × TunState) :=
  match st.inbound with
  | p :: rest => .ready (.ok (p, { st with inbound := rest }))
  | [] =>
    if st.inboundClosed then
      .ready (.error (.ioError "failed to receive packet from reader channel"))
    else
      .pending

/-- Embeds `TunRsInterface::read_packets`: one `recv_many` bounded by the batch size,
then an I/O error if it returned zero packets.  `recv_many` returns every
immediately available packet up to the bound; it returns zero only when the
bound is zero or the queue is closed and drained; on an open empty queue (with
a positive bound) the caller suspends. -/
def TunState.read_packets (st : TunState) : AsyncResult (List Packet × TunState) :=
  let batchSize := readPacketsBatchSize st.mtu
  if batchSize ≠ 0 ∧ st.inbound = [] ∧ st.inboundClosed = false then
    .pending
  else
    let n := min batchSize st.inbound.length
    if n = 0 then
      .ready (.error (.ioError "failed to receive packets from reader channel"))
    else
      .ready (.ok (st.inbound.take n, { st with inbound := st.inbound.drop n }))

/-- One `writer_channel.send(packet)`: an error once the receiver is gone;
otherwise the packet joins the tail of the outbound queue (waiting first if the
bounded queue is full — the wait is invisible to the caller's result). -/
def TunState.sendToWriterChannel (st : TunState) (packet : Packet) :
    Except InterfaceError TunState :=
  if st.outboundClosed then
    .error (.ioError "failed to send packet to writer channel")
  else
    .ok { st with outbound := st.outbound ++ [packet] }

/-- Embeds `TunRsInterface::write_packet`: a single channel send. -/
def TunState.write_packet (st : TunState) (packet : Packet) : Except InterfaceError TunState :=
  st.sendToWriterChannel packet

/-- Embeds `TunRsInterface::write_packets`: a `for` loop sending each packet in order,
stopping at the first failing send. -/
def TunState.write_packets (st : TunState) : List Packet → Except InterfaceError TunState
  | [] => .ok st
  | packet :: rest =>
    match st.sendToWriterChannel packet with
    | .error e => .error e
    | .ok st2 => st2.write_packets rest

/-- Runs `n` successive `read_packet` calls (the non-batched path iterated): the
packets obtained in order together with the resulting state, or `none` if any
call suspends or fails. -/
def readPacketSeq : TunState → Nat → Option (List Packet × TunState)
  | st, 0 => some ([], st)
  | st, n + 1 =>
    match st.read_packet with
    | .ready (.ok pr) => (readPacketSeq pr.2 n).map (fun q => (pr.1 :: q.1, q.2))
    | _ => none

/-- Embeds `TunRsInterface::down`: abort both background tasks (closing both queues
from their far ends), then disable the OS device; a device failure surfaces as
a configuration error after the tasks are already gone.  Returns the result
paired with the instance's state afterwards (`down` takes `&self`). -/
def TunState.down (st : TunState) (deviceDisableFails : Bool) :
    Except InterfaceError Unit × TunState :=
  let st2 := { st with inboundClosed := true, outboundClosed := true }
  if deviceDisableFails then
    (.error (.configurationFailed "failed to bring down TUN interface"), st2)
  else
    (.ok (), { st2 with enabled := false })

/-- The state an instance is left in by a successful `down()`. -/
def TunState.downed (st : TunState) : TunState :=
  (st.down false).2

/-- The instance is in the Down state of the spec's two-state machine: both
background loops cancelled and the device disabled. -/
def TunState.isDown (st : TunState) : Prop :=
  st.inboundClosed = true ∧ st.outboundClosed = true ∧ st.enabled = false

/-! ### Background loops -/

/-- Effect of `split_to(size)` on a receive buffer: the packet is the first `size` bytes
actually written by the device. -/
def readerTrim (buffer : List Nat) (size : Nat) : Packet :=
  ⟨buffer.take size⟩

/-- The non-offload writer loop (`writer_task`), run to queue exhaustion on a
device that accepts every send: packets already issued to the device (in
order), then one `recv` and one `interface.send(&packet)` per queued packet. -/
def writerTaskRun : List Packet → List Packet → List Packet
  | [], sent => sent
  | p :: rest, sent => writerTaskRun rest (sent ++ [p])

/-- The non-offload reader loop (`reader_task`) delivering a run of device
receives into the inbound queue: for each receive, an MTU-sized buffer is
allocated, the device fills its first `size` bytes, and the buffer trimmed to
`size` is pushed.  `recvs` lists each receive as (buffer contents after the
device wrote into it, reported size). -/
def readerTaskRun (recvs : List (List Nat × Nat)) (inq : List Packet) : List Packet :=
  inq ++ recvs.map (fun r => readerTrim r.1 r.2)

/-- A loopback device run: every packet the writer loop issued to the device
comes back through the reader loop.  For each packet the device reports exactly
its bytes: the reader's MTU-sized buffer holds the packet's bytes followed by
whatever the rest of the (uninitialized) buffer held — `pad p` — and the
reported size is the packet's length. -/
def loopbackRecvs (pad : Packet → List Nat) (sent : List Packet) : List (List Nat × Nat) :=
  sent.map (fun p => (p.data ++ pad p, p.data.length))

/-- Result of one `recv_multiple` call on the offload fast path: a filled count
together with the contents of the `sizes` vector after the call, the
`ErrorKind::Other` would-block condition (again with the `sizes` vector's
contents after the call — the caller gets no count), or a fatal error. -/
inductive RecvMultipleResult where
  | ok (count : Nat) (sizesAfter : List Nat) : RecvMultipleResult
  | errWouldBlock (sizesAfter : List Nat) : RecvMultipleResult
  | errFatal : RecvMultipleResult

/-- The sizes the device reported for one `recv_multiple` call: on success the
first `count` entries of the sizes vector; on the would-block or fatal paths it
reported none. -/
def deviceReported : RecvMultipleResult → Option (List Nat)
  | .ok count sizesAfter => some (sizesAfter.take count)
  | .errWouldBlock _ => none
  | .errFatal => none

/-- One iteration of the offload reader loop (`reader_task`, offload variant):
fresh MTU-sized buffers `bufs`, one `recv_multiple` into them reusing the
`sizes` vector carried across iterations — `sizesAfter` in the outcome is what
that vector holds once the call returns (on the error paths the call reported
no count for it, so it may simply be the previous iteration's values).  A fatal
error ends the loop (`none`); `ErrorKind::Other` is treated as if the full
batch had been filled, so all `bufs.length` buffers are pushed, each trimmed to
the corresponding entry of the `sizes` vector; success pushes the first `count`
buffers trimmed to the reported sizes.  Returns the pushed packets and the
`sizes` vector for the next iteration. -/
def offloadReaderStep (bufs : List (List Nat))
    (r : RecvMultipleResult) : Option (List Packet × List Nat) :=
  match r with
  | .errFatal => none
  | .ok count sizesAfter =>
    some ((List.zipWith readerTrim bufs sizesAfter).take count, sizesAfter)
  | .errWouldBlock sizesAfter =>
    some (List.zipWith readerTrim bufs sizesAfter, sizesAfter)

/-! ## Claim formalizations used by counterexamples -/

/-- C1 as stated: whenever the validation capability rejects the received
credential payload, `handle_authentication` reports failure to its caller and
the paired client-side `authenticate` call — having reached its single reply
read, whose outcome is consistent with what the server sent — fails with an
invalid-credentials error. -/
def c1Claim : Prop :=
  ∀ (serverAddress : IpNet) (t : Nat) (senv : ServerEnv) (cenv : ClientEnv)
    (w : Wire) (pl : Json) (e : AuthError),
    senv.transport.acceptBi t = .completed (.ok ()) →
    senv.readBuf t = .completed (.ok w) →
    parseWire w = some (.authenticate pl) →
    senv.authenticateUser pl = .error e →
    cenv.transport.openBi t = .completed (.ok ()) →
    (∃ q, cenv.payload = .ok q) →
    cenv.writeAll = .ok () →
    clientRecvConsistent (AuthServer.handle_authentication serverAddress t senv).2
      (cenv.readBuf t) →
    (∃ e2, (AuthServer.handle_authentication serverAddress t senv).1 = .error e2) ∧
    AuthClient.authenticate t cenv = .error .invalidCredentials

/-- C5 as stated: whenever the responder's single bounded receive completes but
fails to parse as an `AuthMessage`, or yields a message other than
`Authenticate`, `handle_authentication` sends `Failed` back and returns an
invalid-payload error. -/
def c5Claim : Prop :=
  ∀ (serverAddress : IpNet) (t : Nat) (env : ServerEnv) (w : Wire),
    env.transport.acceptBi t = .completed (.ok ()) →
    env.readBuf t = .completed (.ok w) →
    (parseWire w = none ∨ ∃ m, parseWire w = some m ∧ ∀ pl, m ≠ .authenticate pl) →
    AuthServer.handle_authentication serverAddress t env = (.error .invalidPayload, [.failed])

/-- C7 as stated: after a successful `down()`, every read and write operation
on the instance returns an IoError. -/
def c7Claim : Prop :=
  ∀ st : TunState,
    (∃ m, (st.downed).read_packet = .ready (.error (.ioError m))) ∧
    (∃ m, (st.downed).read_packets = .ready (.error (.ioError m))) ∧
    (∀ p, ∃ m, (st.downed).write_packet p = .error (.ioError m)) ∧
    (∀ p ps, ∃ m, (st.downed).write_packets (p :: ps) = .error (.ioError m))

/-- C9's offload clause as stated: the offload batch bound equals
`min(64KB / MTU, platform-ideal-batch)` for every positive MTU. -/
def c9Claim : Prop :=
  ∀ mtu ideal, 0 < mtu → offloadBatchSize mtu ideal = specOffloadBatchSize mtu ideal

/-- C10 as stated, at one offload reader iteration: every packet the iteration
pushes has length exactly the number of bytes the device reported for that
receive. -/
def c10Claim (bufs : List (List Nat)) (r : RecvMultipleResult) : Prop :=
  ∀ pushed sizesNext, offloadReaderStep bufs r = some (pushed, sizesNext) →
    ∃ rep, deviceReported r = some rep ∧
      pushed.map (fun p => p.data.length) = rep

/-! ## Theorems -/

/-- C3: `Packet::destination` returns the IPv4 address at bytes 16..20 when the
buffer is non-empty with version nibble 4 and at least 20 bytes; the IPv6
address at bytes 24..40 for version nibble 6 and at least 40 bytes; and in
every other case the packet-format error naming the empty buffer, the
unsupported version, or the length problem. -/
theorem claim_C3 (b : List Nat) :
    (b ≠ [] → b.headD 0 >>> 4 = 4 → 20 ≤ b.length →
      Packet.destination ⟨b⟩ = .ok (.v4 ((b.drop 16).take 4))) ∧
    (b ≠ [] → b.headD 0 >>> 4 = 6 → 40 ≤ b.length →
      Packet.destination ⟨b⟩ = .ok (.v6 ((b.drop 24).take 16))) ∧
    (b = [] → Packet.destination ⟨b⟩ = .error (.packetError "Packet is empty")) ∧
    (b ≠ [] → b.headD 0 >>> 4 ≠ 4 → b.headD 0 >>> 4 ≠ 6 →
      Packet.destination ⟨b⟩ =
        .error (.packetError s!"Unsupported IP version: {b.headD 0 >>> 4}")) ∧
    (b ≠ [] → b.headD 0 >>> 4 = 4 → b.length < 20 →
      Packet.destination ⟨b⟩ = .error (.packetError "Packet is too short for IPv4 header")) ∧
    (b ≠ [] → b.headD 0 >>> 4 = 6 → b.length < 40 →
      Packet.destination ⟨b⟩ = .error (.packetError "Packet is too short for IPv6 header")) := by
  cases b with
  | nil =>
    refine ⟨fun h => absurd rfl h, fun h => absurd rfl h, fun _ => ?_,
      fun h => absurd rfl h, fun h => absurd rfl h, fun h => absurd rfl h⟩
    simp [Packet.destination]
  | cons x t =>
    refine ⟨?_, ?_, ?_, ?_, ?_, ?_⟩
    · intro _ hv hl
      simp only [List.headD_cons] at hv
      have hlt : ¬(t.length + 1 < 20) := by simp at hl; omega
      simp [Packet.destination, Packet.parse_ipv4_destination, List.headD_cons, hv, hlt,
        Except.map]
    · intro _ hv hl
      simp only [List.headD_cons] at hv
      have hlt : ¬(t.length + 1 < 40) := by simp at hl; omega
      simp [Packet.destination, Packet.parse_ipv6_destination, List.headD_cons, hv, hlt,
        Except.map]
    · intro h
      simp at h
    · intro _ hv4 hv6
      simp only [List.headD_cons] at hv4 hv6
      simp [Packet.destination, List.headD_cons, hv4, hv6]
    · intro _ hv hl
      simp only [List.headD_cons] at hv
      have hlt : t.length + 1 < 20 := by simpa using hl
      simp [Packet.destination, Packet.parse_ipv4_destination, List.headD_cons, hv, hlt,
        Except.map]
    · intro _ hv hl
      simp only [List.headD_cons] at hv
      have hlt : t.length + 1 < 40 := by simpa using hl
      simp [Packet.destination, Packet.parse_ipv6_destination, List.headD_cons, hv, hlt,
        Except.map]

/-- Witness for C3 at the spec's concrete example: a 20-byte buffer with first
byte `0x45` and destination bytes `203.0.113.7`. -/
theorem claim_C3_witness :
    ([69, 0, 0, 0, 0, 0, 0, 0, 0, 0, 0, 0, 0, 0, 0, 0, 203, 0, 113, 7] ≠ ([] : List Nat)) ∧
    Packet.destination ⟨[69, 0, 0, 0, 0, 0, 0, 0, 0, 0, 0, 0, 0, 0, 0, 0, 203, 0, 113, 7]⟩ =
      .ok (.v4 [203, 0, 113, 7]) :=
  ⟨by decide,
   (claim_C3 [69, 0, 0, 0, 0, 0, 0, 0, 0, 0, 0, 0, 0, 0, 0, 0, 203, 0, 113, 7]).1
     (by decide) (by decide) (by decide)⟩

/-- C9 counterexample: at MTU 512 with an ideal batch of 128, the code computes
`min(65535 / 512, 128) = 127`, while the claim's `min(64KB / MTU, ideal)`
formula gives `min(65536 / 512, 128) = 128`. -/
theorem claim_C9_counterexample : ¬c9Claim := by
  intro h
  exact absurd (h 512 128 (by norm_num)) (by decide)

/-- C9 amended: the batch bound is derived from the maximum representable
payload size `u16::MAX = 65535` — that is, 64KB − 1, not 64KB — divided by the
MTU; `read_packets` returns at most that many packets per call, and the offload
paths cap the per-call batch at `min((64KB − 1) / MTU, platform ideal
batch)`. -/
theorem claim_C9_amended :
    (∀ mtu ideal, offloadBatchSize mtu ideal = min ((65536 - 1) / mtu) ideal) ∧
    (∀ (st : TunState) ps st2, st.read_packets = .ready (.ok (ps, st2)) →
      ps.length ≤ readPacketsBatchSize st.mtu) := by
  constructor
  · intro mtu ideal
    rfl
  · intro st ps st2 h
    by_cases hp : readPacketsBatchSize st.mtu ≠ 0 ∧ st.inbound = [] ∧ st.inboundClosed = false
    · simp [TunState.read_packets, hp] at h
    · simp only [TunState.read_packets, if_neg hp] at h
      by_cases hn : min (readPacketsBatchSize st.mtu) st.inbound.length = 0
      · simp [hn] at h
      · simp [hn] at h
        obtain ⟨hps, -⟩ := h
        subst hps
        simp [Nat.min_le_left]

/-- Witness for the amended C9 at a concrete state: one packet read from a
queue holding one packet at MTU 1400. -/
theorem claim_C9_amended_witness :
    TunState.read_packets
        { inbound := [⟨[1, 2, 3]⟩], inboundClosed := false, outbound := [],
          outboundClosed := false, enabled := true, mtu := 1400 } =
      .ready (.ok ([⟨[1, 2, 3]⟩],
        { inbound := [], inboundClosed := false, outbound := [],
          outboundClosed := false, enabled := true, mtu := 1400 })) ∧
    [Packet.mk [1, 2, 3]].length ≤ readPacketsBatchSize 1400 :=
  ⟨by simp [TunState.read_packets, readPacketsBatchSize],
   claim_C9_amended.2
     { inbound := [⟨[1, 2, 3]⟩], inboundClosed := false, outbound := [],
       outboundClosed := false, enabled := true, mtu := 1400 }
     [⟨[1, 2, 3]⟩]
     { inbound := [], inboundClosed := false, outbound := [],
       outboundClosed := false, enabled := true, mtu := 1400 }
     (by simp [TunState.read_packets, readPacketsBatchSize])⟩

/-- C7 counterexample: an instance brought down while one packet is still
buffered in the inbound queue.  The closed channel still drains its buffer, so
the first `read_packet` after `down()` returns that packet, not an IoError. -/
theorem claim_C7_counterexample : ¬c7Claim := by
  intro h
  obtain ⟨⟨m, hm⟩, -, -, -⟩ :=
    h { inbound := [⟨[1, 2, 3]⟩], inboundClosed := false, outbound := [],
        outboundClosed := false, enabled := true, mtu := 1400 }
  simp [TunState.downed, TunState.down, TunState.read_packet] at hm

/-- C7 amended: after a successful `down()`, write calls return an IoError
immediately; read calls first drain any packets that were already buffered in
the inbound queue (in FIFO order) and return an IoError once it is empty; no
read or write suspends indefinitely; and every operation leaves the instance in
the Down state — nothing returns it to Up. -/
theorem claim_C7_amended (st : TunState) :
    (st.down false).1 = .ok () ∧
    (st.downed).isDown ∧
    (∀ p, (st.downed).write_packet p =
      .error (.ioError "failed to send packet to writer channel")) ∧
    (∀ p ps, (st.downed).write_packets (p :: ps) =
      .error (.ioError "failed to send packet to writer channel")) ∧
    (st.inbound = [] → (st.downed).read_packet =
      .ready (.error (.ioError "failed to receive packet from reader channel"))) ∧
    (∀ p rest, st.inbound = p :: rest →
      (st.downed).read_packet = .ready (.ok (p, ({ st with inbound := rest }).downed))) ∧
    (st.downed).read_packet ≠ .pending ∧
    (st.downed).read_packets ≠ .pending ∧
    (∀ p st2, (st.downed).read_packet = .ready (.ok (p, st2)) → st2.isDown) ∧
    (∀ ps st2, (st.downed).read_packets = .ready (.ok (ps, st2)) → st2.isDown) := by
  refine ⟨rfl, ⟨rfl, rfl, rfl⟩, ?_, ?_, ?_, ?_, ?_, ?_, ?_, ?_⟩
  · intro p
    simp [TunState.downed, TunState.down, TunState.write_packet, TunState.sendToWriterChannel]
  · intro p ps
    simp [TunState.downed, TunState.down, TunState.write_packets, TunState.sendToWriterChannel]
  · intro hin
    simp [TunState.downed, TunState.down, TunState.read_packet, hin]
  · intro p rest hin
    simp [TunState.downed, TunState.down, TunState.read_packet, hin]
  · cases hin : st.inbound with
    | nil => simp [TunState.downed, TunState.down, TunState.read_packet, hin]
    | cons p rest => simp [TunState.downed, TunState.down, TunState.read_packet, hin]
  · simp [TunState.downed, TunState.down, TunState.read_packets]
    split <;> simp
  · intro p st2 h
    cases hin : st.inbound with
    | nil => simp [TunState.downed, TunState.down, TunState.read_packet, hin] at h
    | cons q rest =>
      simp [TunState.downed, TunState.down, TunState.read_packet, hin] at h
      obtain ⟨-, h2⟩ := h
      rw [← h2]
      exact ⟨rfl, rfl, rfl⟩
  · intro ps st2 h
    simp only [TunState.downed, TunState.down, TunState.read_packets] at h
    by_cases hn :
        min (readPacketsBatchSize st.mtu) st.inbound.length = 0
    · simp [hn] at h
    · simp [hn] at h
      obtain ⟨-, h2⟩ := h
      rw [← h2]
      exact ⟨rfl, rfl, rfl⟩

/-- Witness for the amended C7: a concrete instance with an empty inbound
queue, where the post-`down()` read indeed returns the IoError. -/
theorem claim_C7_amended_witness :
    (TunState.downed
        { inbound := [], inboundClosed := false, outbound := [],
          outboundClosed := false, enabled := true, mtu := 1400 }).read_packet =
      .ready (.error (.ioError "failed to receive packet from reader channel")) :=
  (claim_C7_amended
    { inbound := [], inboundClosed := false, outbound := [],
      outboundClosed := false, enabled := true, mtu := 1400 }).2.2.2.2.1 rfl

/-- Length of a trimmed receive buffer. -/
theorem readerTrim_length (buffer : List Nat) (size : Nat) :
    (readerTrim buffer size).data.length = min size buffer.length := by
  simp [readerTrim]

/-- When the sizes vector matches the buffer batch in length, every buffer has
the MTU size, and every size is within the MTU, the trimmed packets' lengths
are exactly the sizes vector. -/
theorem map_length_zipWith_trim (mtu : Nat) :
    ∀ (bufs : List (List Nat)) (sizes : List Nat),
      (∀ b ∈ bufs, b.length = mtu) → (∀ s ∈ sizes, s ≤ mtu) →
      sizes.length = bufs.length →
      (List.zipWith readerTrim bufs sizes).map (fun p => p.data.length) = sizes := by
  intro bufs
  induction bufs with
  | nil =>
    intro sizes _ _ hlen
    simp at hlen
    simp [hlen]
  | cons b bs ih =>
    intro sizes hb hs hlen
    cases sizes with
    | nil => simp at hlen
    | cons s ss =>
      simp only [List.zipWith_cons_cons, List.map_cons]
      have h1 : (readerTrim b s).data.length = s := by
        rw [readerTrim_length]
        have hbl : b.length = mtu := hb b (by simp)
        have hsl : s ≤ mtu := hs s (by simp)
        omega
      rw [h1, ih ss (fun x hx => hb x (by simp [hx])) (fun x hx => hs x (by simp [hx]))
        (by simpa using hlen)]

/-- Every packet produced by trimming a batch of buffers comes from one of the
buffers. -/
theorem mem_zipWith_trim :
    ∀ (bufs : List (List Nat)) (sizes : List Nat) (q : Packet),
      q ∈ List.zipWith readerTrim bufs sizes → ∃ b ∈ bufs, ∃ s, q = readerTrim b s := by
  intro bufs
  induction bufs with
  | nil =>
    intro sizes q hq
    simp at hq
  | cons b bs ih =>
    intro sizes q hq
    cases sizes with
    | nil => simp at hq
    | cons s ss =>
      simp only [List.zipWith_cons_cons, List.mem_cons] at hq
      cases hq with
      | inl h => exact ⟨b, by simp, s, h⟩
      | inr h =>
        obtain ⟨b2, hb2, s2, hs2⟩ := ih ss q h
        exact ⟨b2, by simp [hb2], s2, hs2⟩

/-- C10 counterexample: an offload reader iteration whose `recv_multiple` hits
the `ErrorKind::Other` would-block condition.  The device reported no sizes for
that receive, yet the loop (treating it as a full batch) pushes a full batch of
packets, trimmed by whatever the reused sizes vector holds — here the previous
iteration's values `[3, 2]`. -/
theorem claim_C10_counterexample :
    ¬c10Claim [[9, 9, 9, 9, 9], [8, 8, 8, 8, 8]] (.errWouldBlock [3, 2]) := by
  intro h
  obtain ⟨rep, hrep, -⟩ := h _ _ rfl
  simp [deviceReported] at hrep

/-- C10 amended: on the non-offload path and on a successful offload receive,
every pushed packet's length is exactly the size the device reported for it
(receive buffers are MTU-sized and the device never reports more than the
buffer it filled); on the would-block path the loop instead reuses the sizes
vector's previous contents; and on every path each pushed packet's length is at
most the MTU, because each receive buffer is allocated at MTU size. -/
theorem claim_C10_amended (mtu : Nat) :
    (∀ (buffer : List Nat) (size : Nat), buffer.length = mtu → size ≤ mtu →
      (readerTrim buffer size).data.length = size) ∧
    (∀ (bufs : List (List Nat)) (sizesAfter : List Nat) (count : Nat) pushed sizesNext,
      (∀ b ∈ bufs, b.length = mtu) → (∀ s ∈ sizesAfter, s ≤ mtu) →
      sizesAfter.length = bufs.length →
      offloadReaderStep bufs (.ok count sizesAfter) = some (pushed, sizesNext) →
      deviceReported (.ok count sizesAfter) = some (sizesAfter.take count) ∧
      pushed.map (fun p => p.data.length) = sizesAfter.take count) ∧
    (∀ (bufs : List (List Nat)) (r : RecvMultipleResult) pushed sizesNext,
      (∀ b ∈ bufs, b.length = mtu) →
      offloadReaderStep bufs r = some (pushed, sizesNext) →
      ∀ q ∈ pushed, q.data.length ≤ mtu) := by
  refine ⟨?_, ?_, ?_⟩
  · intro buffer size hb hs
    rw [readerTrim_length]
    omega
  · intro bufs sizesAfter count pushed sizesNext hb hs hlen hstep
    simp only [offloadReaderStep, Option.some.injEq, Prod.mk.injEq] at hstep
    obtain ⟨hpushed, -⟩ := hstep
    refine ⟨rfl, ?_⟩
    rw [← hpushed, List.map_take, map_length_zipWith_trim mtu bufs sizesAfter hb hs hlen]
  · intro bufs r pushed sizesNext hb hstep q hq
    have hmem : ∃ b ∈ bufs, ∃ s, q = readerTrim b s := by
      cases r with
      | errFatal => simp [offloadReaderStep] at hstep
      | ok count sizesAfter =>
        simp only [offloadReaderStep, Option.some.injEq, Prod.mk.injEq] at hstep
        obtain ⟨hpushed, -⟩ := hstep
        rw [← hpushed] at hq
        exact mem_zipWith_trim bufs sizesAfter q (List.mem_of_mem_take hq)
      | errWouldBlock sizesAfter =>
        simp only [offloadReaderStep, Option.some.injEq, Prod.mk.injEq] at hstep
        obtain ⟨hpushed, -⟩ := hstep
        rw [← hpushed] at hq
        exact mem_zipWith_trim bufs sizesAfter q hq
    obtain ⟨b, hbmem, s, hqs⟩ := hmem
    rw [hqs, readerTrim_length]
    have : b.length = mtu := hb b hbmem
    omega

/-- Witness for the amended C10: one MTU-3 buffer batch, a successful receive
reporting one packet of 2 bytes. -/
theorem claim_C10_amended_witness :
    ((∀ b ∈ [[5, 6, 7]], List.length b = 3) ∧ (∀ s ∈ [2], s ≤ 3)) ∧
    (deviceReported (.ok 1 [2]) = some ([2].take 1) ∧
      ([Packet.mk [5, 6]].map (fun p => p.data.length) = [2].take 1)) :=
  ⟨⟨by decide, by decide⟩,
   (claim_C10_amended 3).2.1 [[5, 6, 7]] [2] 1 [⟨[5, 6]⟩] [2]
     (by decide) (by decide) (by decide) rfl⟩

/-- The writer loop issues the queued packets to the device in FIFO order. -/
theorem writerTaskRun_eq : ∀ (q sent : List Packet), writerTaskRun q sent = sent ++ q := by
  intro q
  induction q with
  | nil => intro sent; simp [writerTaskRun]
  | cons p rest ih => intro sent; simp [writerTaskRun, ih]

/-- Trimming a receive buffer that starts with a packet's bytes at that
packet's reported length recovers the packet exactly. -/
theorem readerTrim_exact (p : Packet) (rest : List Nat) :
    readerTrim (p.data ++ rest) p.data.length = p := by
  simp [readerTrim, List.take_left]

/-- Reading back each written packet through a loopback receive is the
identity on the packet list. -/
theorem map_loopback_id (pad : Packet → List Nat) :
    ∀ sent : List Packet,
      sent.map (fun p => readerTrim (p.data ++ pad p) p.data.length) = sent := by
  intro sent
  induction sent with
  | nil => rfl
  | cons p rest ih => simp [readerTrim_exact, ih]

/-- A loopback run of the reader loop delivers the written packets to the
inbound queue in order with their bytes unchanged. -/
theorem readerTaskRun_loopback (pad : Packet → List Nat) (sent inq : List Packet) :
    readerTaskRun (loopbackRecvs pad sent) inq = inq ++ sent := by
  simp only [readerTaskRun, loopbackRecvs, List.map_map, Function.comp_def]
  rw [map_loopback_id]

/-- Batched `write_packets` is the left fold of `write_packet`. -/
theorem write_packets_eq_foldlM (ps : List Packet) : ∀ st : TunState,
    st.write_packets ps = ps.foldlM TunState.write_packet st := by
  induction ps with
  | nil => intro st; rfl
  | cons p rest ih =>
    intro st
    simp only [TunState.write_packets, List.foldlM_cons]
    cases h : st.sendToWriterChannel p with
    | error e => simp [TunState.write_packet, h, Bind.bind, Except.bind]
    | ok st2 => simp [TunState.write_packet, h, ih st2, Bind.bind, Except.bind]

/-- On an open outbound queue, `write_packets` appends exactly its argument to
the queue's tail, in order. -/
theorem write_packets_open (ps : List Packet) : ∀ st : TunState, st.outboundClosed = false →
    st.write_packets ps = .ok { st with outbound := st.outbound ++ ps } := by
  induction ps with
  | nil => intro st h; simp [TunState.write_packets]
  | cons p rest ih =>
    intro st h
    have hsend : st.sendToWriterChannel p = .ok { st with outbound := st.outbound ++ [p] } := by
      simp [TunState.sendToWriterChannel, h]
    simp only [TunState.write_packets, hsend]
    have hnext := ih { st with outbound := st.outbound ++ [p] } (by simpa using h)
    simp only at hnext
    rw [hnext]
    simp

/-- Exactly `n` single reads from a queue holding at least `n` packets pop exactly the
first `n` in order. -/
theorem readPacketSeq_take : ∀ (n : Nat) (st : TunState), n ≤ st.inbound.length →
    readPacketSeq st n = some (st.inbound.take n, { st with inbound := st.inbound.drop n }) := by
  intro n
  induction n with
  | zero => intro st _; simp [readPacketSeq]
  | succ k ih =>
    intro st hn
    cases hin : st.inbound with
    | nil => rw [hin] at hn; simp at hn
    | cons p rest =>
      simp only [readPacketSeq, TunState.read_packet, hin]
      rw [ih { st with inbound := rest } (by rw [hin] at hn; simpa using hn)]
      simp [hin]

/-- C6: `write_packets` is equivalent to writing each packet with
`write_packet` in sequence and enqueues exactly its argument in order; a
batched read is equivalent to the same number of single reads; and on a
loopback device the packets written come back through the reader loop and
`read_packets` in strict FIFO order with their bytes unchanged. -/
theorem claim_C6 :
    (∀ (st : TunState) (ps : List Packet),
      st.write_packets ps = ps.foldlM TunState.write_packet st) ∧
    (∀ (st : TunState) (ps : List Packet), st.outboundClosed = false →
      st.write_packets ps = .ok { st with outbound := st.outbound ++ ps }) ∧
    (∀ (st : TunState) ps st2, st.read_packets = .ready (.ok (ps, st2)) →
      readPacketSeq st ps.length = some (ps, st2)) ∧
    (∀ (st : TunState) (ps : List Packet) (pad : Packet → List Nat),
      st.outboundClosed = false → st.outbound = [] → st.inbound = [] →
      ps ≠ [] → ps.length ≤ readPacketsBatchSize st.mtu →
      ∃ st2, st.write_packets ps = .ok st2 ∧
        writerTaskRun st2.outbound [] = ps ∧
        readerTaskRun (loopbackRecvs pad (writerTaskRun st2.outbound [])) st.inbound = ps ∧
        ({ st with inbound := ps } : TunState).read_packets =
          .ready (.ok (ps, { st with inbound := [] }))) := by
  refine ⟨fun st ps => write_packets_eq_foldlM ps st,
    fun st ps h => write_packets_open ps st h, ?_, ?_⟩
  · intro st ps st2 h
    by_cases hp : readPacketsBatchSize st.mtu ≠ 0 ∧ st.inbound = [] ∧ st.inboundClosed = false
    · simp [TunState.read_packets, hp] at h
    · simp only [TunState.read_packets, if_neg hp] at h
      by_cases hn : min (readPacketsBatchSize st.mtu) st.inbound.length = 0
      · simp [hn] at h
      · simp [hn] at h
        obtain ⟨hps, hst2⟩ := h
        have hle : min (readPacketsBatchSize st.mtu) st.inbound.length ≤ st.inbound.length :=
          Nat.min_le_right _ _
        have hlen : ps.length = min (readPacketsBatchSize st.mtu) st.inbound.length := by
          rw [← hps, List.length_take]
          omega
        rw [hlen, readPacketSeq_take _ st hle, hps, hst2]
  · intro st ps pad hclosed hout hin hne hbatch
    refine ⟨{ st with outbound := ps }, ?_, ?_, ?_, ?_⟩
    · rw [write_packets_open ps st hclosed, hout]
      simp
    · simp [writerTaskRun_eq]
    · rw [writerTaskRun_eq, readerTaskRun_loopback, hin]
      simp
    · have hps0 : ps.length ≠ 0 := by
        cases ps with
        | nil => exact absurd rfl hne
        | cons a l => simp
      have hmin : min (readPacketsBatchSize st.mtu) ps.length = ps.length := by omega
      simp [TunState.read_packets, hne, hmin, hps0, List.take_length, List.drop_length]

/-- Witness for C6: two packets written through `write_packets` on a fresh open
instance at MTU 1400 come back through the loopback harness in order. -/
theorem claim_C6_witness :
    (([⟨[1]⟩, ⟨[2]⟩] : List Packet) ≠ [] ∧
      ([⟨[1]⟩, ⟨[2]⟩] : List Packet).length ≤ readPacketsBatchSize 1400) ∧
    (∃ st2,
      TunState.write_packets
          { inbound := [], inboundClosed := false, outbound := [],
            outboundClosed := false, enabled := true, mtu := 1400 } [⟨[1]⟩, ⟨[2]⟩] = .ok st2 ∧
      writerTaskRun st2.outbound [] = [⟨[1]⟩, ⟨[2]⟩] ∧
      readerTaskRun (loopbackRecvs (fun _ => []) (writerTaskRun st2.outbound [])) [] =
        [⟨[1]⟩, ⟨[2]⟩] ∧
      ({ inbound := [⟨[1]⟩, ⟨[2]⟩], inboundClosed := false, outbound := [],
         outboundClosed := false, enabled := true, mtu := 1400 } : TunState).read_packets =
        .ready (.ok ([⟨[1]⟩, ⟨[2]⟩],
          { inbound := [], inboundClosed := false, outbound := [],
            outboundClosed := false, enabled := true, mtu := 1400 }))) :=
  ⟨⟨by decide, by decide⟩,
   claim_C6.2.2.2
     { inbound := [], inboundClosed := false, outbound := [],
       outboundClosed := false, enabled := true, mtu := 1400 }
     [⟨[1]⟩, ⟨[2]⟩] (fun _ => []) rfl rfl rfl (by decide) (by decide)⟩

/-- C2: once the initiator has sent its `Authenticate` message and its single
bounded receive completes successfully with some buffer `w`, `authenticate`
returns the carried address pair when the reply is `Authenticated`, fails with
an invalid-credentials error when the reply is `Failed`, and fails with an
invalid-payload error for any other reply, including data that does not parse
as an `AuthMessage`. -/
theorem claim_C2 (t : Nat) (env : ClientEnv) (w : Wire)
    (hopen : env.transport.openBi t = .completed (.ok ()))
    (hpayload : ∃ pl, env.payload = .ok pl)
    (hwrite : env.writeAll = .ok ())
    (hread : env.readBuf t = .completed (.ok w)) :
    (∀ ca sa, parseWire w = some (.authenticated ca sa) →
      AuthClient.authenticate t env = .ok (ca, sa)) ∧
    (parseWire w = some .failed →
      AuthClient.authenticate t env = .error .invalidCredentials) ∧
    (∀ pl, parseWire w = some (.authenticate pl) →
      AuthClient.authenticate t env = .error .invalidPayload) ∧
    (parseWire w = none →
      AuthClient.authenticate t env = .error .invalidPayload) := by
  obtain ⟨pl, hpl⟩ := hpayload
  refine ⟨?_, ?_, ?_, ?_⟩
  · intro ca sa hparse
    simp [AuthClient.authenticate, AuthStreamBuilder.connect, AuthStream.send_message,
      AuthStream.recv_message, hopen, hpl, hwrite, hread, hparse, Bind.bind, Except.bind]
  · intro hparse
    simp [AuthClient.authenticate, AuthStreamBuilder.connect, AuthStream.send_message,
      AuthStream.recv_message, hopen, hpl, hwrite, hread, hparse, Bind.bind, Except.bind]
  · intro pl2 hparse
    simp [AuthClient.authenticate, AuthStreamBuilder.connect, AuthStream.send_message,
      AuthStream.recv_message, hopen, hpl, hwrite, hread, hparse, Bind.bind, Except.bind]
  · intro hparse
    simp [AuthClient.authenticate, AuthStreamBuilder.connect, AuthStream.send_message,
      AuthStream.recv_message, hopen, hpl, hwrite, hread, hparse, Bind.bind, Except.bind]

/-- Witness for C2: a client whose single reply read delivers the serialized
`Failed` message fails with `InvalidCredentials`. -/
theorem claim_C2_witness :
    parseWire (.json (.str "Failed")) = some AuthMessage.failed ∧
    AuthClient.authenticate 5
        { transport := ⟨fun _ => .completed (.ok ()), fun _ => .completed (.ok ())⟩,
          payload := .ok .null, writeAll := .ok (),
          readBuf := fun _ => .completed (.ok (.json (.str "Failed"))) } =
      .error .invalidCredentials :=
  ⟨rfl,
   (claim_C2 5
     { transport := ⟨fun _ => .completed (.ok ()), fun _ => .completed (.ok ())⟩,
       payload := .ok .null, writeAll := .ok (),
       readBuf := fun _ => .completed (.ok (.json (.str "Failed"))) }
     (.json (.str "Failed")) rfl ⟨.null, rfl⟩ rfl rfl).2.1 rfl⟩

/-- C4: every blocking handshake step (stream open, stream accept, message
receive) is bounded by the configured duration it is invoked with, and expiry
of any of them surfaces as the distinct `Timeout` error kind; in particular a
responder that never replies makes the initiator's `authenticate` fail with a
timeout error, not a stream/I/O error.  The client-side expiry conversion is
the spec-modelled `elapsedError`. -/
theorem claim_C4 :
    (∀ (env : TransportEnv) (t : Nat), env.openBi t = .elapsed →
      AuthStreamBuilder.connect .client env t = .error .timeout) ∧
    (∀ (env : TransportEnv) (t : Nat), env.acceptBi t = .elapsed →
      AuthStreamBuilder.connect .server env t = .error .timeout) ∧
    (∀ (sa : IpNet) (t : Nat) (env : ServerEnv),
      env.transport.acceptBi t = .completed (.ok ()) → env.readBuf t = .elapsed →
      AuthServer.handle_authentication sa t env = (.error .timeout, [])) ∧
    (∀ (t : Nat) (env : ClientEnv),
      env.transport.openBi t = .completed (.ok ()) → (∃ pl, env.payload = .ok pl) →
      env.writeAll = .ok () → (∀ d, env.readBuf d = .elapsed) →
      AuthClient.authenticate t env = .error .timeout) ∧
    (AuthError.timeout ≠ AuthError.streamError ∧ elapsedError = AuthError.timeout) := by
  refine ⟨?_, ?_, ?_, ?_, by decide, rfl⟩
  · intro env t h
    simp [AuthStreamBuilder.connect, h]
  · intro env t h
    simp [AuthStreamBuilder.connect, h]
  · intro sa t env haccept hread
    simp [AuthServer.handle_authentication, AuthStreamBuilder.connect, haccept, hread]
  · intro t env hopen hpayload hwrite hread
    obtain ⟨pl, hpl⟩ := hpayload
    simp [AuthClient.authenticate, AuthStreamBuilder.connect, AuthStream.send_message,
      elapsedError, hopen, hpl, hwrite, hread t, Bind.bind, Except.bind]

/-- Witness for C4: a client whose reply never arrives fails with the timeout
error. -/
theorem claim_C4_witness :
    AuthClient.authenticate 7
        { transport := ⟨fun _ => .completed (.ok ()), fun _ => .completed (.ok ())⟩,
          payload := .ok .null, writeAll := .ok (),
          readBuf := fun _ => .elapsed } =
      .error .timeout :=
  claim_C4.2.2.2.1 7
    { transport := ⟨fun _ => .completed (.ok ()), fun _ => .completed (.ok ())⟩,
      payload := .ok .null, writeAll := .ok (),
      readBuf := fun _ => .elapsed }
    rfl ⟨.null, rfl⟩ rfl (fun _ => rfl)

/-- C5 counterexample: a responder whose single receive completes with bytes
that do not parse as an `AuthMessage`.  `recv_message`'s invalid-payload error
propagates through the `??` before the message match is reached, so the server
returns the invalid-payload error without sending anything — no `Failed`
reply. -/
theorem claim_C5_counterexample : ¬c5Claim := by
  intro h
  have h2 := h (.v4 [10, 0, 0, 1] 32) 5
    { transport := ⟨fun _ => .completed (.ok ()), fun _ => .completed (.ok ())⟩,
      readBuf := fun _ => .completed (.ok .garbage),
      authenticateUser := fun _ => .error .invalidCredentials,
      writeAll := .ok () }
    .garbage rfl rfl (Or.inl rfl)
  have h3 : ([] : List AuthMessage) = [.failed] := congrArg Prod.snd h2
  simp at h3

/-- C5 amended: if the responder's single bounded receive completes with data
that does not parse as an `AuthMessage`, `handle_authentication` returns an
invalid-payload error without sending any reply; if it completes with a message
that parses but is not `Authenticate`, the responder sends `Failed` back and
returns an invalid-payload error. -/
theorem claim_C5_amended (serverAddress : IpNet) (t : Nat) (env : ServerEnv) (w : Wire)
    (haccept : env.transport.acceptBi t = .completed (.ok ()))
    (hread : env.readBuf t = .completed (.ok w)) :
    (parseWire w = none →
      AuthServer.handle_authentication serverAddress t env = (.error .invalidPayload, [])) ∧
    (∀ m, parseWire w = some m → (∀ pl, m ≠ .authenticate pl) →
      AuthServer.handle_authentication serverAddress t env =
        (.error .invalidPayload, [.failed])) := by
  constructor
  · intro hparse
    simp [AuthServer.handle_authentication, AuthStreamBuilder.connect, AuthStream.recv_message,
      haccept, hread, hparse]
  · intro m hparse hnot
    cases m with
    | authenticate pl => exact absurd rfl (hnot pl)
    | authenticated ca sa =>
      simp [AuthServer.handle_authentication, AuthStreamBuilder.connect, AuthStream.recv_message,
        haccept, hread, hparse]
    | failed =>
      simp [AuthServer.handle_authentication, AuthStreamBuilder.connect, AuthStream.recv_message,
        haccept, hread, hparse]

/-- Witness for the amended C5: a responder that receives the (well-formed but
unexpected) `Failed` message sends `Failed` back and reports invalid
payload. -/
theorem claim_C5_amended_witness :
    parseWire (.json (.str "Failed")) = some AuthMessage.failed ∧
    AuthServer.handle_authentication (.v4 [10, 0, 0, 1] 32) 5
        { transport := ⟨fun _ => .completed (.ok ()), fun _ => .completed (.ok ())⟩,
          readBuf := fun _ => .completed (.ok (.json (.str "Failed"))),
          authenticateUser := fun _ => .error .invalidCredentials,
          writeAll := .ok () } =
      (.error .invalidPayload, [.failed]) :=
  ⟨rfl,
   (claim_C5_amended (.v4 [10, 0, 0, 1] 32) 5
     { transport := ⟨fun _ => .completed (.ok ()), fun _ => .completed (.ok ())⟩,
       readBuf := fun _ => .completed (.ok (.json (.str "Failed"))),
       authenticateUser := fun _ => .error .invalidCredentials,
       writeAll := .ok () }
     (.json (.str "Failed")) rfl rfl).2 .failed rfl (fun _ h => AuthMessage.noConfusion h)⟩

/-- C1 counterexample: a responder whose validator rejects the payload, paired
with a client whose reply read then expires.  The server propagates the
validation error without sending anything — in particular no `Failed` message —
so the client's receive cannot deliver one; with the read expired the client
fails with a timeout error, not with invalid-credentials. -/
theorem claim_C1_counterexample : ¬c1Claim := by
  intro h
  have h2 := h (.v4 [10, 0, 0, 1] 32) 5
    { transport := ⟨fun _ => .completed (.ok ()), fun _ => .completed (.ok ())⟩,
      readBuf := fun _ =>
        .completed (.ok (.json (.obj [("Authenticate", .obj [("payload", .null)])]))),
      authenticateUser := fun _ => .error .invalidCredentials,
      writeAll := .ok () }
    { transport := ⟨fun _ => .completed (.ok ()), fun _ => .completed (.ok ())⟩,
      payload := .ok .null, writeAll := .ok (),
      readBuf := fun _ => .elapsed }
    (.json (.obj [("Authenticate", .obj [("payload", .null)])])) .null .invalidCredentials
    rfl rfl rfl rfl rfl ⟨.null, rfl⟩ rfl trivial
  have h3 := h2.2
  simp [AuthClient.authenticate, AuthStreamBuilder.connect, AuthStream.send_message,
    elapsedError, Bind.bind, Except.bind] at h3

/-- C1 amended: when the validation capability rejects the received payload,
`handle_authentication` propagates the validation error to its caller and sends
no reply at all.  The paired client therefore never receives a `Failed` message
from this exchange: once its own receive gives up it fails with a timeout or
stream error — never with invalid-credentials, and (under the one-document
framing model) never with invalid-payload either. -/
theorem claim_C1_amended (serverAddress : IpNet) (t : Nat) (senv : ServerEnv) (cenv : ClientEnv)
    (w : Wire) (pl : Json) (e : AuthError)
    (haccept : senv.transport.acceptBi t = .completed (.ok ()))
    (hreadS : senv.readBuf t = .completed (.ok w))
    (hparse : parseWire w = some (.authenticate pl))
    (hreject : senv.authenticateUser pl = .error e) :
    AuthServer.handle_authentication serverAddress t senv = (.error e, []) ∧
    (cenv.transport.openBi t = .completed (.ok ()) →
      (∃ q, cenv.payload = .ok q) →
      cenv.writeAll = .ok () →
      clientRecvConsistent [] (cenv.readBuf t) →
      (AuthClient.authenticate t cenv = .error .timeout ∨
        AuthClient.authenticate t cenv = .error .streamError) ∧
      AuthClient.authenticate t cenv ≠ .error .invalidCredentials ∧
      AuthClient.authenticate t cenv ≠ .error .invalidPayload) := by
  constructor
  · simp [AuthServer.handle_authentication, AuthStreamBuilder.connect, AuthStream.recv_message,
      haccept, hreadS, hparse, hreject]
  · intro hopen hpay hwrite hcons
    obtain ⟨q, hq⟩ := hpay
    cases hr : cenv.readBuf t with
    | elapsed =>
      have hres : AuthClient.authenticate t cenv = .error .timeout := by
        simp [AuthClient.authenticate, AuthStreamBuilder.connect, AuthStream.send_message,
          elapsedError, hopen, hq, hwrite, hr, Bind.bind, Except.bind]
      exact ⟨Or.inl hres, by simp [hres], by simp [hres]⟩
    | completed r =>
      cases r with
      | error u =>
        have hres : AuthClient.authenticate t cenv = .error .streamError := by
          simp [AuthClient.authenticate, AuthStreamBuilder.connect, AuthStream.send_message,
            AuthStream.recv_message, hopen, hq, hwrite, hr, Bind.bind, Except.bind]
        exact ⟨Or.inr hres, by simp [hres], by simp [hres]⟩
      | ok w2 =>
        rw [hr] at hcons
        simp [clientRecvConsistent] at hcons

/-- Witness for the amended C1: a concrete rejecting responder propagates
`InvalidCredentials` and sends nothing; the concrete paired client whose read
expires fails with the timeout error. -/
theorem claim_C1_amended_witness :
    (parseWire (.json (.obj [("Authenticate", .obj [("payload", .null)])])) =
      some (.authenticate .null) ∧
     AuthServer.handle_authentication (.v4 [10, 0, 0, 1] 32) 5
        { transport := ⟨fun _ => .completed (.ok ()), fun _ => .completed (.ok ())⟩,
          readBuf := fun _ =>
            .completed (.ok (.json (.obj [("Authenticate", .obj [("payload", .null)])]))),
          authenticateUser := fun _ => .error .invalidCredentials,
          writeAll := .ok () } =
       (.error .invalidCredentials, [])) ∧
    (AuthClient.authenticate 5
        { transport := ⟨fun _ => .completed (.ok ()), fun _ => .completed (.ok ())⟩,
          payload := .ok .null, writeAll := .ok (),
          readBuf := fun _ => .elapsed } = .error .timeout ∨
     AuthClient.authenticate 5
        { transport := ⟨fun _ => .completed (.ok ()), fun _ => .completed (.ok ())⟩,
          payload := .ok .null, writeAll := .ok (),
          readBuf := fun _ => .elapsed } = .error .streamError) :=
  ⟨⟨rfl,
    (claim_C1_amended (.v4 [10, 0, 0, 1] 32) 5
      { transport := ⟨fun _ => .completed (.ok ()), fun _ => .completed (.ok ())⟩,
        readBuf := fun _ =>
          .completed (.ok (.json (.obj [("Authenticate", .obj [("payload", .null)])]))),
        authenticateUser := fun _ => .error .invalidCredentials,
        writeAll := .ok () }
      { transport := ⟨fun _ => .completed (.ok ()), fun _ => .completed (.ok ())⟩,
        payload := .ok .null, writeAll := .ok (),
        readBuf := fun _ => .elapsed }
      (.json (.obj [("Authenticate", .obj [("payload", .null)])])) .null .invalidCredentials
      rfl rfl rfl rfl).1⟩,
   ((claim_C1_amended (.v4 [10, 0, 0, 1] 32) 5
      { transport := ⟨fun _ => .completed (.ok ()), fun _ => .completed (.ok ())⟩,
        readBuf := fun _ =>
          .completed (.ok (.json (.obj [("Authenticate", .obj [("payload", .null)])]))),
        authenticateUser := fun _ => .error .invalidCredentials,
        writeAll := .ok () }
      { transport := ⟨fun _ => .completed (.ok ()), fun _ => .completed (.ok ())⟩,
        payload := .ok .null, writeAll := .ok (),
        readBuf := fun _ => .elapsed }
      (.json (.obj [("Authenticate", .obj [("payload", .null)])])) .null .invalidCredentials
      rfl rfl rfl rfl).2 rfl ⟨.null, rfl⟩ rfl trivial).1⟩

/-- Digit characters decode back to their digit in any base up to 16. -/
theorem charToDigit_digitChar : ∀ b < 17, ∀ d < b, charToDigit b (digitChar d) = some d := by
  decide

/-- Every entry of `msbDigits b n` is a valid base-`b` digit. -/
theorem msbDigits_lt (b n : Nat) (hb : 2 ≤ b) : ∀ d ∈ msbDigits b n, d < b := by
  intro d hd
  unfold msbDigits at hd
  by_cases h : n = 0
  · simp [h] at hd
    omega
  · simp [h] at hd
    exact Nat.digits_lt_base (by omega) hd

/-- The digit expansion is never empty. -/
theorem msbDigits_ne_nil (b n : Nat) : msbDigits b n ≠ [] := by
  unfold msbDigits
  by_cases h : n = 0
  · simp [h]
  · simp [h, Nat.digits_ne_nil_iff_ne_zero.mpr h]

/-- Both `takeWhile`/`dropWhile` split an all-satisfying block followed by a
non-satisfying head exactly at the boundary. -/
theorem takeWhile_append_eq (p : Char → Bool) :
    ∀ (l r : List Char), (∀ x ∈ l, p x = true) →
      (∀ c, r.head? = some c → p c = false) →
      (l ++ r).takeWhile p = l ∧ (l ++ r).dropWhile p = r := by
  intro l
  induction l with
  | nil =>
    intro r _ hr
    cases r with
    | nil => exact ⟨rfl, rfl⟩
    | cons c r2 =>
      have hc := hr c rfl
      exact ⟨by simp [List.takeWhile_cons, hc], by simp [List.dropWhile_cons, hc]⟩
  | cons x t ih =>
    intro r hl hr
    have hx : p x = true := hl x (by simp)
    obtain ⟨h1, h2⟩ := ih r (fun y hy => hl y (by simp [hy])) hr
    exact ⟨by simp [List.takeWhile_cons, hx, h1], by simp [List.dropWhile_cons, hx, h2]⟩

/-- The most-significant-first fold computes the number from its digits. -/
theorem foldl_mul_add (b : Nat) :
    ∀ (L : List Nat) (acc : Nat),
      L.foldl (fun a d => a * b + d) acc = Nat.ofDigits b L.reverse + acc * b ^ L.length := by
  intro L
  induction L with
  | nil => intro acc; simp [Nat.ofDigits]
  | cons d t ih =>
    intro acc
    simp only [List.foldl_cons, List.reverse_cons, List.length_cons]
    rw [ih (acc * b + d), Nat.ofDigits_append]
    simp [Nat.ofDigits]
    ring

/-- Folding the decoded characters equals folding the digits. -/
theorem foldl_map_digitChar (b : Nat) (hb : b ≤ 16) :
    ∀ L : List Nat, (∀ d ∈ L, d < b) → ∀ acc : Nat,
      (L.map digitChar).foldl (fun a c => a * b + (charToDigit b c).getD 0) acc =
        L.foldl (fun a d => a * b + d) acc := by
  intro L
  induction L with
  | nil => intro _ acc; rfl
  | cons d t ih =>
    intro hL acc
    have hd : d < b := hL d (by simp)
    have hc : charToDigit b (digitChar d) = some d :=
      charToDigit_digitChar b (by omega) d hd
    simp only [List.map_cons, List.foldl_cons, hc, Option.getD_some]
    exact ih (fun y hy => hL y (by simp [hy])) _

/-- Reassembling the most-significant-first digits recovers the number. -/
theorem ofDigits_msbDigits (b n : Nat) : Nat.ofDigits b (msbDigits b n).reverse = n := by
  unfold msbDigits
  by_cases h : n = 0
  · simp [h, Nat.ofDigits]
  · simp [h, Nat.ofDigits_digits]

/-- Every character of a rendered number is a base-`b` digit character. -/
theorem mem_renderNum_isDigit (b n : Nat) (hb2 : 2 ≤ b) (hb16 : b ≤ 16) :
    ∀ c ∈ renderNum b n, (charToDigit b c).isSome = true := by
  intro c hc
  unfold renderNum at hc
  obtain ⟨d, hd, rfl⟩ := List.mem_map.mp hc
  rw [charToDigit_digitChar b (by omega) d (msbDigits_lt b n hb2 d hd)]
  rfl

/-- Reading a rendered number back, with any non-digit continuation, recovers
the number and leaves the continuation. -/
theorem parseNum_render (b n : Nat) (hb2 : 2 ≤ b) (hb16 : b ≤ 16) (rest : List Char)
    (hrest : ∀ c, rest.head? = some c → charToDigit b c = none) :
    parseNum b (renderNum b n ++ rest) = some (n, rest) := by
  have hall : ∀ x ∈ renderNum b n, (fun c => (charToDigit b c).isSome) x = true :=
    fun x hx => mem_renderNum_isDigit b n hb2 hb16 x hx
  have hstop : ∀ c, rest.head? = some c → (fun c => (charToDigit b c).isSome) c = false := by
    intro c hch
    simp [hrest c hch]
  obtain ⟨htake, hdrop⟩ := takeWhile_append_eq _ (renderNum b n) rest hall hstop
  have hne : (renderNum b n).isEmpty = false := by
    unfold renderNum
    cases hmsb : msbDigits b n with
    | nil => exact absurd hmsb (msbDigits_ne_nil b n)
    | cons d t => simp
  have hval : (renderNum b n).foldl (fun acc c => acc * b + (charToDigit b c).getD 0) 0 = n := by
    unfold renderNum
    rw [foldl_map_digitChar b hb16 (msbDigits b n) (msbDigits_lt b n hb2), foldl_mul_add]
    simp [ofDigits_msbDigits]
  unfold parseNum
  rw [htake, hdrop]
  simp [hne, hval]

/-- Reading a rendered separated list back, with any non-digit continuation,
recovers the numbers and leaves the continuation. -/
theorem parseSepNums_render (b : Nat) (sep : Char) (hb2 : 2 ≤ b) (hb16 : b ≤ 16)
    (hsep : charToDigit b sep = none) :
    ∀ (ns : List Nat) (rest : List Char),
      (∀ c, rest.head? = some c → charToDigit b c = none) →
      ns ≠ [] →
      parseSepNums b sep ns.length (renderSepNums b sep ns ++ rest) = some (ns, rest) := by
  intro ns
  induction ns with
  | nil => intro rest _ hne; exact absurd rfl hne
  | cons n tail ih =>
    intro rest hrest _
    cases tail with
    | nil =>
      show parseSepNums b sep 1 (renderNum b n ++ rest) = _
      simp only [parseSepNums]
      rw [parseNum_render b n hb2 hb16 rest hrest]
      rfl
    | cons m t2 =>
      show parseSepNums b sep (t2.length + 2)
        ((renderNum b n ++ sep :: renderSepNums b sep (m :: t2)) ++ rest) = _
      have hp1 : parseNum b (renderNum b n ++ (sep :: (renderSepNums b sep (m :: t2) ++ rest))) =
          some (n, sep :: (renderSepNums b sep (m :: t2) ++ rest)) := by
        refine parseNum_render b n hb2 hb16 _ ?_
        intro c hc
        simp only [List.head?_cons, Option.some.injEq] at hc
        rw [← hc]
        exact hsep
      have hih := ih rest hrest (by simp)
      simp only [List.length_cons] at hih
      simp only [List.append_assoc, List.cons_append, parseSepNums]
      rw [hp1]
      simp [expectChar, Option.bind, hih]

/-- Reading `k + 2` separated numbers from a string that contains no separator
at all fails. -/
theorem parseSepNums_none_of_no_sep (b : Nat) (sep : Char) (k : Nat) (cs : List Char)
    (hmem : sep ∉ cs) : parseSepNums b sep (k + 2) cs = none := by
  simp only [parseSepNums]
  by_cases he : (cs.takeWhile (fun c => (charToDigit b c).isSome)).isEmpty
  · simp [parseNum, he, Option.bind]
  · cases hd : cs.dropWhile (fun c => (charToDigit b c).isSome) with
    | nil => simp [parseNum, he, hd, expectChar, Option.bind]
    | cons c r =>
      have hcmem : c ∈ cs := by
        have hsub : List.Sublist (cs.dropWhile (fun x => (charToDigit b x).isSome)) cs :=
          List.dropWhile_sublist _
        refine hsub.subset ?_
        rw [hd]
        exact List.mem_cons_self c r
      have hcne : ¬(c = sep) := by
        rintro rfl
        exact hmem hcmem
      simp [parseNum, he, hd, expectChar, hcne, Option.bind]

/-- A character that is not a base-`b` digit does not occur in a rendered
number. -/
theorem not_mem_renderNum (b n : Nat) (hb2 : 2 ≤ b) (hb16 : b ≤ 16) (c : Char)
    (hc : charToDigit b c = none) : c ∉ renderNum b n := by
  intro hmem
  have h2 := mem_renderNum_isDigit b n hb2 hb16 c hmem
  rw [hc] at h2
  simp at h2

/-- A character that is neither a base-`b` digit nor the separator does not
occur in a rendered separated list. -/
theorem not_mem_renderSepNums (b : Nat) (sep : Char) (hb2 : 2 ≤ b) (hb16 : b ≤ 16) (c : Char)
    (hc : charToDigit b c = none) (hcs : c ≠ sep) :
    ∀ ns : List Nat, c ∉ renderSepNums b sep ns := by
  intro ns
  induction ns with
  | nil => simp [renderSepNums]
  | cons n tail ih =>
    cases tail with
    | nil =>
      show c ∉ renderNum b n
      exact not_mem_renderNum b n hb2 hb16 c hc
    | cons m t2 =>
      intro hmem
      simp only [renderSepNums, List.mem_append, List.mem_cons] at hmem
      rcases hmem with h | h | h
      · exact not_mem_renderNum b n hb2 hb16 c hc h
      · exact hcs h
      · exact ih h

/-- The dot is not a digit character in any base. -/
theorem charToDigit_dot (b : Nat) : charToDigit b '.' = none := rfl

/-- The colon is not a digit character in any base. -/
theorem charToDigit_colon (b : Nat) : charToDigit b ':' = none := rfl

/-- The slash is not a digit character in any base. -/
theorem charToDigit_slash (b : Nat) : charToDigit b '/' = none := rfl

/-- A well-formed IPv4 CIDR rendering parses back to the same network. -/
theorem parseIpv4Net_render (os : List Nat) (pl : Nat)
    (hlen : os.length = 4) (hos : ∀ o ∈ os, o < 256) (hpl : pl ≤ 32) :
    parseIpv4NetChars (renderIpNet (.v4 os pl)) = some (.v4 os pl) := by
  have hne : os ≠ [] := by
    intro h
    rw [h] at hlen
    simp at hlen
  have hr : ∀ c, ('/' :: renderNum 10 pl).head? = some c → charToDigit 10 c = none := by
    intro c hc
    simp only [List.head?_cons, Option.some.injEq] at hc
    rw [← hc]
    exact charToDigit_slash 10
  have h1 := parseSepNums_render 10 '.' (by norm_num) (by norm_num) (charToDigit_dot 10) os
    ('/' :: renderNum 10 pl) hr hne
  rw [hlen] at h1
  have h2 : parseNum 10 (renderNum 10 pl) = some (pl, []) := by
    have h3 := parseNum_render 10 pl (by norm_num) (by norm_num) []
      (by intro c hc; simp at hc)
    rwa [List.append_nil] at h3
  simp only [parseIpv4NetChars, renderIpNet]
  rw [h1]
  simp [expectChar, Option.bind, h2, hos, hpl]
  exact hos

/-- A well-formed IPv6 CIDR rendering parses back to the same network. -/
theorem parseIpv6Net_render (gs : List Nat) (pl : Nat)
    (hlen : gs.length = 8) (hgs : ∀ g ∈ gs, g < 65536) (hpl : pl ≤ 128) :
    parseIpv6NetChars (renderIpNet (.v6 gs pl)) = some (.v6 gs pl) := by
  have hne : gs ≠ [] := by
    intro h
    rw [h] at hlen
    simp at hlen
  have hr : ∀ c, ('/' :: renderNum 10 pl).head? = some c → charToDigit 16 c = none := by
    intro c hc
    simp only [List.head?_cons, Option.some.injEq] at hc
    rw [← hc]
    exact charToDigit_slash 16
  have h1 := parseSepNums_render 16 ':' (by norm_num) (by norm_num) (charToDigit_colon 16) gs
    ('/' :: renderNum 10 pl) hr hne
  rw [hlen] at h1
  have h2 : parseNum 10 (renderNum 10 pl) = some (pl, []) := by
    have h3 := parseNum_render 10 pl (by norm_num) (by norm_num) []
      (by intro c hc; simp at hc)
    rwa [List.append_nil] at h3
  simp only [parseIpv6NetChars, renderIpNet]
  rw [h1]
  simp [expectChar, Option.bind, h2, hgs, hpl]
  exact hgs

/-- The IPv4 branch fails on any rendered IPv6 network: its text contains no
dot, and the four-octet reader needs one after its first number. -/
theorem parseIpv4Net_v6_none (gs : List Nat) (pl : Nat) :
    parseIpv4NetChars (renderIpNet (.v6 gs pl)) = none := by
  have hdot : '.' ∉ renderIpNet (.v6 gs pl) := by
    intro hmem
    simp only [renderIpNet, List.mem_append, List.mem_cons] at hmem
    rcases hmem with h | h | h
    · exact not_mem_renderSepNums 16 ':' (by norm_num) (by norm_num) '.'
        (charToDigit_dot 16) (by decide) gs h
    · exact absurd h (by decide)
    · exact not_mem_renderNum 10 pl (by norm_num) (by norm_num) '.' (charToDigit_dot 10) h
  have h4 : parseSepNums 10 '.' 4 (renderIpNet (.v6 gs pl)) = none :=
    parseSepNums_none_of_no_sep 10 '.' 2 _ hdot
  simp only [parseIpv4NetChars]
  rw [h4]
  rfl

/-- A well-formed `IpNet`'s CIDR string parses back to the same value. -/
theorem parseIpNet_render (n : IpNet) (h : n.WF) :
    parseIpNet (String.mk (renderIpNet n)) = some n := by
  cases n with
  | v4 os pl =>
    obtain ⟨hlen, hos, hpl⟩ := h
    simp only [parseIpNet]
    have htl : (String.mk (renderIpNet (.v4 os pl))).toList = renderIpNet (.v4 os pl) := rfl
    rw [htl, parseIpv4Net_render os pl hlen hos hpl]
  | v6 gs pl =>
    obtain ⟨hlen, hgs, hpl⟩ := h
    simp only [parseIpNet]
    have htl : (String.mk (renderIpNet (.v6 gs pl))).toList = renderIpNet (.v6 gs pl) := rfl
    rw [htl, parseIpv4Net_v6_none gs pl, parseIpv6Net_render gs pl hlen hgs hpl]

/-- Deserializing the serialization of a well-formed `AuthMessage` yields the
message again. -/
theorem fromJson_toJson (m : AuthMessage) (h : m.WF) :
    AuthMessage.fromJson m.toJson = some m := by
  cases m with
  | authenticate p => rfl
  | failed => rfl
  | authenticated ca sa =>
    obtain ⟨hca, hsa⟩ := h
    simp [AuthMessage.toJson, AuthMessage.fromJson, lookupField,
      parseIpNet_render ca hca, parseIpNet_render sa hsa]

/-- C8: serialization and deserialization of `AuthMessage` round-trip, and the
serialized form of each variant uses exactly the spec's wire discriminants: an
`Authenticate` object with a `payload` field, an `Authenticated` object with
`client_address` and `server_address` CIDR-string fields, and the bare string
`"Failed"` — one JSON document per message. -/
theorem claim_C8 :
    (∀ m : AuthMessage, m.WF → AuthMessage.fromJson m.toJson = some m) ∧
    (∀ p, AuthMessage.toJson (.authenticate p) =
      .obj [("Authenticate", .obj [("payload", p)])]) ∧
    (∀ ca sa, AuthMessage.toJson (.authenticated ca sa) =
      .obj [("Authenticated", .obj
        [("client_address", .str (String.mk (renderIpNet ca))),
         ("server_address", .str (String.mk (renderIpNet sa)))])]) ∧
    AuthMessage.toJson .failed = .str "Failed" :=
  ⟨fromJson_toJson, fun _ => rfl, fun _ _ => rfl, rfl⟩

/-- Witness for C8: a concrete `Authenticated` message with two well-formed
IPv4 networks round-trips. -/
theorem claim_C8_witness :
    (AuthMessage.authenticated (.v4 [10, 0, 0, 2] 24) (.v4 [10, 0, 0, 1] 16)).WF ∧
    AuthMessage.fromJson (AuthMessage.toJson
        (.authenticated (.v4 [10, 0, 0, 2] 24) (.v4 [10, 0, 0, 1] 16))) =
      some (.authenticated (.v4 [10, 0, 0, 2] 24) (.v4 [10, 0, 0, 1] 16)) :=
  ⟨⟨by decide, by decide⟩, claim_C8.1 _ ⟨by decide, by decide⟩⟩

end Quincy
